import Mathlib

/-!
Shallow embedding of the periodic hyper-rectangle bound
(`DHrectPeriodicBound`, file `fastlib/tree/dhrectperiodicbound_impl.h`)
over exact rational arithmetic, with the metric template parameter
instantiated at `t_pow = 2` (so `pow(v, t_pow) = v ^ 2` and
`pow(sum, 2 / t_pow) = sum`, recovering squared Euclidean distance).
C `double` values are modelled as `ℚ`; `floor` is `Int.floor`.
-/

/-- Per-axis range with fields `lo`, `hi` (the `DRange` of the source;
its two fields are read directly throughout `dhrectperiodicbound_impl.h`). -/
structure DRange where
  lo : ℚ
  hi : ℚ
  deriving DecidableEq

/-- Modelled from the spec: `DRange::Contains` is not under `src/`;
per the spec, the point must literally fall in `[lo, hi]`, no wraparound. -/
def DRange.Contains (r : DRange) (x : ℚ) : Bool :=
  decide (r.lo ≤ x) && decide (x ≤ r.hi)

/-- Modelled from the spec: `DRange::mid` is not under `src/`;
per the spec, the midpoint of an axis range is the average of `lo` and `hi`. -/
def DRange.mid (r : DRange) : ℚ :=
  (r.lo + r.hi) / 2

/-- Modelled from the spec: `DRange::operator|=(double)` is not under `src/`;
per the spec, `Include(point)` widens `[lo, hi]` to cover the coordinate. -/
def DRange.includePoint (r : DRange) (x : ℚ) : DRange :=
  ⟨min r.lo x, max r.hi x⟩

/-- The floor-based fold `x - floor(x / T) * T` used by every periodic query
(spec glossary: "Fold"). -/
def fold (x T : ℚ) : ℚ :=
  x - (⌊x / T⌋ : ℚ) * T

/-- A non-periodic hyper-rectangle operand (`DHrectBound`): the periodic
bound's binary queries only read `other.bounds_[d]` and `other.dim_`. -/
structure DHrectBound where
  dim : ℕ
  bounds : ℕ → DRange

/-- The periodic hyper-rectangle bound: `dim_`, the owned array `bounds_`,
and the period vector `box_size__`. -/
structure DHrectPeriodicBound where
  dim : ℕ
  bounds : ℕ → DRange
  box_size : ℕ → ℚ

namespace DHrectPeriodicBound

/-- `SetBoxSize` (lines 53-56): stores the supplied vector into `box_size__`. -/
def SetBoxSize (B : DHrectPeriodicBound) (box : ℕ → ℚ) : DHrectPeriodicBound :=
  { B with box_size := box }

/-- The loop of `Contains` (lines 118-127): runs over the indices of the
supplied point, checking `bounds_[i].Contains(point(i))`, with early exit. -/
def containsLoop (bounds : ℕ → DRange) : ℕ → List ℚ → Bool
  | _, [] => true
  | i, x :: xs => if (bounds i).Contains x then containsLoop bounds (i + 1) xs else false

/-- `Contains(point)` (lines 118-127): the point is a vector whose length
`n_elem` drives the loop; the bound's own `dim_` is never consulted. -/
def Contains (B : DHrectPeriodicBound) (point : List ℚ) : Bool :=
  containsLoop B.bounds 0 point

/-- `CalculateMidpoint` (lines 150-159): the vector of per-axis midpoints. -/
def CalculateMidpoint (bounds : ℕ → DRange) : ℕ → ℚ :=
  fun i => (bounds i).mid

end DHrectPeriodicBound

/-- One axis term of `MinDistanceSq(const vec&)` (lines 164-182): fold the
axis width and the point offset into `[0, box)`, then
`if (bh > a) v = min(a - bh, box - a)` else `v = 0`, accumulating `v ^ 2`. -/
def minPointTerm (r : DRange) (T a0 : ℚ) : ℚ :=
  let bh := fold (r.hi - r.lo) T
  let a := fold (a0 - r.lo) T
  let v := if bh > a then min (a - bh) (T - a) else 0
  v ^ 2

/-- `MinDistanceSq(const vec&)` (lines 164-182) at `t_pow = 2`:
`pow(sum, 2 / t_pow)` is the identity. -/
def DHrectPeriodicBound.MinDistanceSqPoint (B : DHrectPeriodicBound) (point : ℕ → ℚ) : ℚ :=
  ∑ d in Finset.range B.dim, minPointTerm (B.bounds d) (B.box_size d) (point d)

/-- The clamped per-axis value `v` of `MaxDistanceSq(const vec&)`
(lines 212-234), before `pow(fabs(v), t_pow)`. -/
def maxPointV (r : DRange) (T b : ℚ) : ℚ :=
  let v := T / 2
  let ah := fold (r.hi - b) T
  if ah < v then ah
  else
    let al := fold (r.lo - b) T
    if al > v then 2 * v - al else v

/-- `MaxDistanceSq(const vec&)` (lines 212-234) at `t_pow = 2`. -/
def DHrectPeriodicBound.MaxDistanceSqPoint (B : DHrectPeriodicBound) (point : ℕ → ℚ) : ℚ :=
  ∑ d in Finset.range B.dim, |maxPointV (B.bounds d) (B.box_size d) (point d)| ^ 2

/-- One axis term of `MinDistanceSq(const DHrectBound&)` (lines 189-207):
the three candidate gaps `d1, d2, d3` (boolean comparisons used as 0/1
multipliers) combined through the zero-clamp ramp `(d + |d|)`. -/
def minBoundTerm (r s : DRange) (T : ℚ) : ℚ :=
  let d1 := (if r.hi > r.lo ∨ s.hi > s.lo then (1 : ℚ) else 0) *
    min (s.lo - r.hi) (r.lo - s.hi)
  let d2 := (if r.hi > r.lo ∧ s.hi > s.lo then (1 : ℚ) else 0) *
    min (s.lo - r.hi) (r.lo - s.hi + T)
  let d3 := (if r.hi > r.lo ∧ s.hi > s.lo then (1 : ℚ) else 0) *
    min (s.lo - r.hi + T) (r.lo - s.hi)
  let v := (d1 + |d1|) + (d2 + |d2|) + (d3 + |d3|)
  v ^ 2

/-- `MinDistanceSq(const DHrectBound&)` (lines 189-207) at `t_pow = 2`:
`pow(sum, 2 / t_pow) / 4.0 = sum / 4`. -/
def DHrectPeriodicBound.MinDistanceSqBound (B : DHrectPeriodicBound) (other : DHrectBound) : ℚ :=
  (∑ d in Finset.range B.dim, minBoundTerm (B.bounds d) (other.bounds d) (B.box_size d)) / 4

/-- The per-axis value `v = fabs(max(min(dh, v), min(dl, v)))` of
`MaxDistanceSq(const DHrectBound&)` (lines 256-274). -/
def maxBoundV (r s : DRange) (T : ℚ) : ℚ :=
  let v := T / 2
  let dh := fold (r.hi - s.lo) T
  let dl := fold (s.hi - r.lo) T
  |max (min dh v) (min dl v)|

/-- `MaxDistanceSq(const DHrectBound&)` (lines 256-274) at `t_pow = 2`. -/
def DHrectPeriodicBound.MaxDistanceSqBound (B : DHrectPeriodicBound) (other : DHrectBound) : ℚ :=
  ∑ d in Finset.range B.dim, maxBoundV (B.bounds d) (other.bounds d) (B.box_size d) ^ 2

/-- `MaxDelta(other, box_width, dim)` (lines 278-296), including the final
branch that recomputes `result` from the un-folded `other.hi - lo` and the
folded `temp` of the second test. -/
def DHrectPeriodicBound.MaxDelta (B : DHrectPeriodicBound) (other : DHrectBound)
    (box_width : ℚ) (d : ℕ) : ℚ :=
  let temp := fold ((other.bounds d).hi - (B.bounds d).lo) box_width
  if temp > box_width / 2 then
    let temp2 := fold ((other.bounds d).lo - (B.bounds d).hi) box_width
    if temp2 > box_width / 2 then
      ((other.bounds d).hi - (B.bounds d).lo) -
        (⌊temp2 / box_width + 1⌋ : ℚ) * box_width
    else 0.5 * box_width
  else temp

/-- `MinDelta(other, box_width, dim)` (lines 298-316). -/
def DHrectPeriodicBound.MinDelta (B : DHrectPeriodicBound) (other : DHrectBound)
    (box_width : ℚ) (d : ℕ) : ℚ :=
  let temp := fold ((other.bounds d).hi - (B.bounds d).lo) box_width
  if temp > box_width / 2 then
    let temp2 := fold ((other.bounds d).hi - (B.bounds d).hi) box_width
    if temp2 > box_width / 2 then temp2 - box_width
    else -0.5 * box_width
  else fold ((other.bounds d).hi - (B.bounds d).hi) box_width

/-- The per-axis `(v_lo, v_hi)` pair of `RangeDistanceSq(const DHrectBound&)`
(lines 321-347): non-periodic gaps, `v_hi` made non-negative by negating the
smaller of `v1, v2`, `v_lo` the larger clamped to zero. -/
def rangeLoHi (r s : DRange) : ℚ × ℚ :=
  let v1 := s.lo - r.hi
  let v2 := r.lo - s.hi
  if v1 ≥ v2 then (if v1 > 0 then v1 else 0, -v2)
  else (if v2 > 0 then v2 else 0, -v1)

/-- `RangeDistanceSq(const DHrectBound&)` (lines 321-347) at `t_pow = 2`:
returns `DRange(sum_lo, sum_hi)`. -/
def DHrectPeriodicBound.RangeDistanceSqBound (B : DHrectPeriodicBound) (other : DHrectBound) :
    DRange :=
  ⟨∑ d in Finset.range B.dim, (rangeLoHi (B.bounds d) (other.bounds d)).1 ^ 2,
   ∑ d in Finset.range B.dim, (rangeLoHi (B.bounds d) (other.bounds d)).2 ^ 2⟩

/-- One axis term of `MinToMidSq` (lines 391-408): the zero-clamp ramp
applied to the gaps between this axis range and the other range's midpoint. -/
def minToMidTerm (r s : DRange) : ℚ :=
  let v := s.mid
  let v1 := r.lo - v
  let v2 := v - r.hi
  ((v1 + |v1|) + (v2 + |v2|)) ^ 2

/-- `MinToMidSq(const DHrectBound&)` (lines 391-408) at `t_pow = 2`. -/
def DHrectPeriodicBound.MinToMidSq (B : DHrectPeriodicBound) (other : DHrectBound) : ℚ :=
  (∑ d in Finset.range B.dim, minToMidTerm (B.bounds d) (other.bounds d)) / 4

/-- One axis of the point `Add` (lines 496-509): fold both edge offsets,
and when `ah < al`, move `hi` (resp. `lo`) to the new point according to
`size - ah < al`; otherwise leave the axis unchanged. -/
def addPointAxis (r : DRange) (p T : ℚ) : DRange :=
  let ah := fold (r.hi - p) T
  let al := fold (r.lo - p) T
  if ah < al then
    if T - ah < al then { r with hi := p } else { r with lo := p }
  else r

/-- `Add(const vec& other, const vec& size)` (lines 485-511): the catch for
uninitialized bounds (`bounds_[0].hi < 0` widens every axis over the point
first), then the per-axis periodic update. -/
def DHrectPeriodicBound.AddPoint (B : DHrectPeriodicBound) (other : ℕ → ℚ) (size : ℕ → ℚ) :
    DHrectPeriodicBound :=
  let B1 := if (B.bounds 0).hi < 0 then
      { B with bounds := fun i => if i < B.dim then (B.bounds i).includePoint (other i)
                                  else B.bounds i }
    else B
  { B1 with bounds := fun i => if i < B1.dim then addPointAxis (B1.bounds i) (other i) (size i)
                               else B1.bounds i }

/-! Concrete instances used by the evaluation theorems below. -/

/-- 1-D bound `[0, 8]` with period `10`. -/
def c1B : DHrectPeriodicBound := ⟨1, fun _ => ⟨0, 8⟩, fun _ => 10⟩

/-- 1-D bound `[1, 2]` with period `10`. -/
def c2B : DHrectPeriodicBound := ⟨1, fun _ => ⟨1, 2⟩, fun _ => 10⟩

/-- 2-D periodic bound `A = {[1,3],[1,3]}` with period `[10,10]`. -/
def exA : DHrectPeriodicBound := ⟨2, fun _ => ⟨1, 3⟩, fun _ => 10⟩

/-- 2-D operand bound `B = {[7,9],[7,9]}`. -/
def exB : DHrectBound := ⟨2, fun _ => ⟨7, 9⟩⟩

/-- Degenerate 1-D bound `[0, 0]` with period `10`. -/
def c5B : DHrectPeriodicBound := ⟨1, fun _ => ⟨0, 0⟩, fun _ => 10⟩

/-- 1-D operand bound `[6, 26]` (wider than one period). -/
def c5O : DHrectBound := ⟨1, fun _ => ⟨6, 26⟩⟩

/-- 1-D bound `[0, 1]` with period `10`. -/
def c5B2 : DHrectPeriodicBound := ⟨1, fun _ => ⟨0, 1⟩, fun _ => 10⟩

/-- 1-D operand bound `[8, 10]`. -/
def c5O2 : DHrectBound := ⟨1, fun _ => ⟨8, 10⟩⟩

/-- 3-D bound whose first two axes are `[0, 1]` and whose third axis is `[5, 6]`. -/
def c10B : DHrectPeriodicBound :=
  ⟨3, fun i => if i < 2 then ⟨0, 1⟩ else ⟨5, 6⟩, fun _ => 10⟩

/-- 4-D bound agreeing with `c10B` on the first two axes only. -/
def c10B2 : DHrectPeriodicBound :=
  ⟨4, fun i => if i < 2 then ⟨0, 1⟩ else ⟨7, 8⟩, fun _ => 5⟩

/-! Properties of the floor-based fold. -/

/-- The fold is `T` times the fractional part of `x / T`. -/
theorem fold_eq_mul_fract (x T : ℚ) (hT : T ≠ 0) : fold x T = T * Int.fract (x / T) := by
  rw [fold, Int.fract]
  field_simp
  ring

/-- For a positive period the fold lands in `[0, T)`: lower end. -/
theorem fold_nonneg {T : ℚ} (hT : 0 < T) (x : ℚ) : 0 ≤ fold x T := by
  rw [fold_eq_mul_fract x T hT.ne']
  exact mul_nonneg hT.le (Int.fract_nonneg _)

/-- For a positive period the fold lands in `[0, T)`: upper end. -/
theorem fold_lt {T : ℚ} (hT : 0 < T) (x : ℚ) : fold x T < T := by
  rw [fold_eq_mul_fract x T hT.ne']
  calc T * Int.fract (x / T) < T * 1 := mul_lt_mul_of_pos_left (Int.fract_lt_one _) hT
  _ = T := mul_one T

/-- Shifting the argument by an integer multiple of the period leaves the
fold unchanged. -/
theorem fold_add_int_mul (x T : ℚ) (k : ℤ) (hT : T ≠ 0) :
    fold (x + (k : ℚ) * T) T = fold x T := by
  have h : (x + (k : ℚ) * T) / T = x / T + (k : ℚ) := by field_simp
  rw [fold, fold, h, Int.floor_add_int]
  push_cast
  ring

/-- Claim C1: the code violates it. On the 1-D bound `[0, 8]` with period
`10`, the point `1` is contained (non-periodically), yet
`MinDistanceSq` returns `49` — neither zero nor below `MaxDistanceSq`,
which returns `1`: the test `if (bh > a)` selects the in-range case
instead of the out-of-range case. -/
theorem MinDistanceSqPoint_contained_point_bug :
    c1B.Contains [1] = true ∧
    c1B.MinDistanceSqPoint (fun _ => 1) = 49 ∧
    c1B.MaxDistanceSqPoint (fun _ => 1) = 1 ∧
    ¬ c1B.MinDistanceSqPoint (fun _ => 1) ≤ c1B.MaxDistanceSqPoint (fun _ => 1) ∧
    c1B.MinDistanceSqPoint (fun _ => 1) ≠ 0 := by
  have h1 : c1B.MinDistanceSqPoint (fun _ => 1) = 49 := by
    norm_num [c1B, DHrectPeriodicBound.MinDistanceSqPoint, minPointTerm, fold,
      Finset.sum_range_succ]
  have h2 : c1B.MaxDistanceSqPoint (fun _ => 1) = 1 := by
    norm_num [c1B, DHrectPeriodicBound.MaxDistanceSqPoint, maxPointV, fold,
      Finset.sum_range_succ]
  refine ⟨by decide, h1, h2, ?_, ?_⟩
  · rw [h1, h2]; norm_num
  · rw [h1]; norm_num

/-- Claim C2 (confirmed): translating any coordinate of the query point by a
whole number of periods leaves `MinDistanceSq(point)` unchanged, provided
every period component is strictly positive. -/
theorem MinDistanceSqPoint_periodic (B : DHrectPeriodicBound) (p : ℕ → ℚ) (k : ℕ → ℤ)
    (hT : ∀ d < B.dim, 0 < B.box_size d) :
    B.MinDistanceSqPoint (fun d => p d + (k d : ℚ) * B.box_size d) =
      B.MinDistanceSqPoint p := by
  unfold DHrectPeriodicBound.MinDistanceSqPoint
  refine Finset.sum_congr rfl fun d hd => ?_
  have hT' : B.box_size d ≠ 0 := (hT d (Finset.mem_range.mp hd)).ne'
  have e : p d + (k d : ℚ) * B.box_size d - (B.bounds d).lo =
      p d - (B.bounds d).lo + (k d : ℚ) * B.box_size d := by ring
  have h : fold (p d + (k d : ℚ) * B.box_size d - (B.bounds d).lo) (B.box_size d) =
      fold (p d - (B.bounds d).lo) (B.box_size d) := by
    rw [e, fold_add_int_mul _ _ _ hT']
  simp only [minPointTerm, h]

/-- Witness for C2 at the 1-D bound `[1, 2]`, period `10`, point `3`,
shift `k = 2`. -/
theorem MinDistanceSqPoint_periodic_witness :
    (∀ d < c2B.dim, 0 < c2B.box_size d) ∧
    c2B.MinDistanceSqPoint (fun d => 3 + ((2 : ℤ) : ℚ) * c2B.box_size d) =
      c2B.MinDistanceSqPoint (fun _ => 3) :=
  ⟨by decide, MinDistanceSqPoint_periodic c2B (fun _ => 3) (fun _ => 2) (by decide)⟩

/-- Claim C8 (confirmed): for `A = {[1,3],[1,3]}`, `B = {[7,9],[7,9]}` and
period `[10,10]`, the bound-to-bound minimum is the wrapped value
`2 * (10 - 9 + 1) ^ 2 = 8`, strictly below the naive `2 * 6 ^ 2 = 72`. -/
theorem MinDistanceSqBound_wrapped_example :
    exA.MinDistanceSqBound exB = 2 * (10 - 9 + 1) ^ 2 ∧
    exA.MinDistanceSqBound exB = 8 ∧
    exA.MinDistanceSqBound exB < 2 * 6 ^ 2 := by
  have h : exA.MinDistanceSqBound exB = 8 := by
    norm_num [exA, exB, DHrectPeriodicBound.MinDistanceSqBound, minBoundTerm,
      Finset.sum_range_succ]
  refine ⟨by rw [h]; norm_num, h, by rw [h]; norm_num⟩

/-- The clamped per-axis value of the point overload of `MaxDistanceSq`
never exceeds half the period in magnitude. -/
theorem abs_maxPointV_le (r : DRange) (b : ℚ) {T : ℚ} (hT : 0 < T) :
    |maxPointV r T b| ≤ T / 2 := by
  have hah0 := fold_nonneg hT (r.hi - b)
  have hahT := fold_lt hT (r.hi - b)
  have hal0 := fold_nonneg hT (r.lo - b)
  have halT := fold_lt hT (r.lo - b)
  simp only [maxPointV]
  split_ifs with h1 h2
  · rw [abs_of_nonneg hah0]; linarith
  · rw [abs_of_nonneg (by linarith)]; linarith
  · rw [abs_of_nonneg (by linarith)]

/-- The per-axis value of the bound overload of `MaxDistanceSq` is
non-negative. -/
theorem maxBoundV_nonneg (r s : DRange) (T : ℚ) : 0 ≤ maxBoundV r s T := by
  simp only [maxBoundV]
  exact abs_nonneg _

/-- The per-axis value of the bound overload of `MaxDistanceSq` never
exceeds half the period. -/
theorem maxBoundV_le (r s : DRange) {T : ℚ} (hT : 0 < T) : maxBoundV r s T ≤ T / 2 := by
  have h1 := fold_nonneg hT (r.hi - s.lo)
  have h2 := fold_nonneg hT (s.hi - r.lo)
  simp only [maxBoundV]
  rw [abs_of_nonneg (le_max_of_le_left (le_min h1 (by linarith)))]
  exact max_le (min_le_right _ _) (min_le_right _ _)

/-- Claim C7 (confirmed): with strictly positive periods, every per-axis
value accumulated by `MaxDistanceSq` — point or bound overload — is clamped
to half the period, so the returned value is at most the squared-norm
aggregate of the half-period vector. -/
theorem MaxDistanceSq_half_period_clamp (B : DHrectPeriodicBound) (point : ℕ → ℚ)
    (other : DHrectBound) (hT : ∀ d < B.dim, 0 < B.box_size d) :
    (∀ d < B.dim, |maxPointV (B.bounds d) (B.box_size d) (point d)| ≤ B.box_size d / 2) ∧
    (∀ d < B.dim, maxBoundV (B.bounds d) (other.bounds d) (B.box_size d) ≤ B.box_size d / 2) ∧
    B.MaxDistanceSqPoint point ≤ ∑ d in Finset.range B.dim, (B.box_size d / 2) ^ 2 ∧
    B.MaxDistanceSqBound other ≤ ∑ d in Finset.range B.dim, (B.box_size d / 2) ^ 2 := by
  refine ⟨fun d hd => abs_maxPointV_le _ _ (hT d hd),
    fun d hd => maxBoundV_le _ _ (hT d hd), ?_, ?_⟩
  · unfold DHrectPeriodicBound.MaxDistanceSqPoint
    refine Finset.sum_le_sum fun d hd => ?_
    exact pow_le_pow_left₀ (abs_nonneg _)
      (abs_maxPointV_le _ _ (hT d (Finset.mem_range.mp hd))) 2
  · unfold DHrectPeriodicBound.MaxDistanceSqBound
    refine Finset.sum_le_sum fun d hd => ?_
    exact pow_le_pow_left₀ (maxBoundV_nonneg _ _ _)
      (maxBoundV_le _ _ (hT d (Finset.mem_range.mp hd))) 2

/-- Witness for C7 at the 2-D bounds `A`, `B` with period `[10,10]`. -/
theorem MaxDistanceSq_half_period_clamp_witness :
    (∀ d < exA.dim, 0 < exA.box_size d) ∧
    ((∀ d < exA.dim,
        |maxPointV (exA.bounds d) (exA.box_size d) ((fun _ => (4 : ℚ)) d)| ≤ exA.box_size d / 2) ∧
     (∀ d < exA.dim,
        maxBoundV (exA.bounds d) (exB.bounds d) (exA.box_size d) ≤ exA.box_size d / 2) ∧
     exA.MaxDistanceSqPoint (fun _ => (4 : ℚ)) ≤
        ∑ d in Finset.range exA.dim, (exA.box_size d / 2) ^ 2 ∧
     exA.MaxDistanceSqBound exB ≤ ∑ d in Finset.range exA.dim, (exA.box_size d / 2) ^ 2) :=
  ⟨by decide, MaxDistanceSq_half_period_clamp exA (fun _ => 4) exB (by decide)⟩

/-- For non-empty axis ranges, the per-axis pair of `RangeDistanceSq` has a
non-negative first component below its second component. -/
theorem rangeLoHi_nonneg_le (r s : DRange) (hr : r.lo ≤ r.hi) (hs : s.lo ≤ s.hi) :
    0 ≤ (rangeLoHi r s).1 ∧ (rangeLoHi r s).1 ≤ (rangeLoHi r s).2 := by
  simp only [rangeLoHi]
  split_ifs with h1 h2 h3 <;> constructor <;> simp only [] <;> linarith

/-- Claim C3: the code violates the equality half. On `A = {[1,3],[1,3]}`,
`B = {[7,9],[7,9]}`, period `[10,10]`, `RangeDistanceSq` returns the
non-periodic pair `(32, 128)` while the standalone periodic queries return
`MinDistanceSq = 8` and `MaxDistanceSq = 50`. -/
theorem RangeDistanceSq_ne_component_queries :
    (exA.RangeDistanceSqBound exB).lo = 32 ∧
    (exA.RangeDistanceSqBound exB).hi = 128 ∧
    exA.MinDistanceSqBound exB = 8 ∧
    exA.MaxDistanceSqBound exB = 50 ∧
    (exA.RangeDistanceSqBound exB).lo ≠ exA.MinDistanceSqBound exB ∧
    (exA.RangeDistanceSqBound exB).hi ≠ exA.MaxDistanceSqBound exB := by
  have hlo : (exA.RangeDistanceSqBound exB).lo = 32 := by
    norm_num [exA, exB, DHrectPeriodicBound.RangeDistanceSqBound, rangeLoHi,
      Finset.sum_range_succ]
  have hhi : (exA.RangeDistanceSqBound exB).hi = 128 := by
    norm_num [exA, exB, DHrectPeriodicBound.RangeDistanceSqBound, rangeLoHi,
      Finset.sum_range_succ]
  have hmin : exA.MinDistanceSqBound exB = 8 := by
    norm_num [exA, exB, DHrectPeriodicBound.MinDistanceSqBound, minBoundTerm,
      Finset.sum_range_succ]
  have hmax : exA.MaxDistanceSqBound exB = 50 := by
    norm_num [exA, exB, DHrectPeriodicBound.MaxDistanceSqBound, maxBoundV, fold,
      Finset.sum_range_succ]
  refine ⟨hlo, hhi, hmin, hmax, ?_, ?_⟩
  · rw [hlo, hmin]; norm_num
  · rw [hhi, hmax]; norm_num

/-- Claim C3 as amended: for operands with non-empty extents on every axis,
`RangeDistanceSq` is internally consistent, `lo <= hi` (its two components
are the non-periodic minimum and maximum, not the periodic standalone
queries). -/
theorem RangeDistanceSq_lo_le_hi (B : DHrectPeriodicBound) (other : DHrectBound)
    (h : ∀ d < B.dim,
      (B.bounds d).lo ≤ (B.bounds d).hi ∧ (other.bounds d).lo ≤ (other.bounds d).hi) :
    (B.RangeDistanceSqBound other).lo ≤ (B.RangeDistanceSqBound other).hi := by
  simp only [DHrectPeriodicBound.RangeDistanceSqBound]
  refine Finset.sum_le_sum fun d hd => ?_
  obtain ⟨hr, hs⟩ := h d (Finset.mem_range.mp hd)
  obtain ⟨h0, hle⟩ := rangeLoHi_nonneg_le _ _ hr hs
  exact pow_le_pow_left₀ h0 hle 2

/-- Witness for the amended C3 at `A`, `B` with period `[10,10]`. -/
theorem RangeDistanceSq_lo_le_hi_witness :
    (∀ d < exA.dim,
      (exA.bounds d).lo ≤ (exA.bounds d).hi ∧ (exB.bounds d).lo ≤ (exB.bounds d).hi) ∧
    (exA.RangeDistanceSqBound exB).lo ≤ (exA.RangeDistanceSqBound exB).hi :=
  ⟨by decide, RangeDistanceSq_lo_le_hi exA exB (by decide)⟩

/-- Claim C4: the code violates it. Including the point `9` into the 1-D
bound `[1, 2]` with period `10` leaves the bound unchanged — the folded
offsets give `ah = 3 >= al = 2`, so neither edge moves and the point is
not encompassed at all (neither `[9,12]` nor the wrapped `[9,2]` results). -/
theorem AddPoint_does_not_include_point :
    (c2B.AddPoint (fun _ => 9) (fun _ => 10)).bounds 0 = ⟨1, 2⟩ ∧
    (c2B.AddPoint (fun _ => 9) (fun _ => 10)).bounds 0 ≠ ⟨9, 12⟩ ∧
    (c2B.AddPoint (fun _ => 9) (fun _ => 10)).bounds 0 ≠ ⟨9, 2⟩ ∧
    ((c2B.AddPoint (fun _ => 9) (fun _ => 10)).bounds 0).Contains 9 = false := by
  have h : (c2B.AddPoint (fun _ => 9) (fun _ => 10)).bounds 0 = ⟨1, 2⟩ := by
    norm_num [c2B, DHrectPeriodicBound.AddPoint, addPointAxis, fold, DRange.includePoint]
  refine ⟨h, ?_, ?_, ?_⟩ <;> rw [h] <;> decide

/-- Claim C5: the code violates it. With box width `10`: `MaxDelta` of the
degenerate bound `[0,0]` against `[6,26]` returns `16`, and `MinDelta` of
`[0,1]` against `[8,10]` returns `9`; both exceed `10 / 2` in magnitude. -/
theorem MaxDelta_MinDelta_exceed_half_width :
    c5B.MaxDelta c5O 10 0 = 16 ∧ ¬ |c5B.MaxDelta c5O 10 0| ≤ 10 / 2 ∧
    c5B2.MinDelta c5O2 10 0 = 9 ∧ ¬ |c5B2.MinDelta c5O2 10 0| ≤ 10 / 2 := by
  have h1 : c5B.MaxDelta c5O 10 0 = 16 := by
    norm_num [c5B, c5O, DHrectPeriodicBound.MaxDelta, fold]
  have h2 : c5B2.MinDelta c5O2 10 0 = 9 := by
    norm_num [c5B2, c5O2, DHrectPeriodicBound.MinDelta, fold]
  refine ⟨h1, ?_, h2, ?_⟩
  · rw [h1]; norm_num
  · rw [h2]; norm_num

/-- Claim C6: the code violates it. `SetBoxSize` accepts the period vector
`(-1, -1, ...)`: the call succeeds and the negative period is stored. -/
theorem SetBoxSize_stores_nonpositive :
    (c2B.SetBoxSize fun _ => -1).box_size 0 = -1 ∧
    (c2B.SetBoxSize fun _ => -1).box_size 0 ≤ 0 := by
  refine ⟨rfl, ?_⟩
  norm_num [c2B, DHrectPeriodicBound.SetBoxSize]

/-- Claim C6 as amended: `SetBoxSize` stores the supplied vector
unconditionally — it performs no validation and alters nothing else. -/
theorem SetBoxSize_stores_unconditionally (B : DHrectPeriodicBound) (box : ℕ → ℚ) :
    (B.SetBoxSize box).box_size = box ∧
    (B.SetBoxSize box).bounds = B.bounds ∧
    (B.SetBoxSize box).dim = B.dim :=
  ⟨rfl, rfl, rfl⟩

/-- The zero-clamp ramp trick: when at most one of the two gaps can be
positive, `((v1 + |v1|) + (v2 + |v2|))^2 / 4` is the squared clamped gap. -/
theorem ramp_sq_div_four (v1 v2 : ℚ) (h : v1 + v2 ≤ 0) :
    ((v1 + |v1|) + (v2 + |v2|)) ^ 2 / 4 = max (max v1 v2) 0 ^ 2 := by
  rcases le_or_lt v1 0 with h1 | h1
  · rcases le_or_lt v2 0 with h2 | h2
    · rw [abs_of_nonpos h1, abs_of_nonpos h2, max_eq_right (max_le h1 h2)]
      ring
    · have hm : max (max v1 v2) 0 = v2 := by
        rw [max_eq_right (h1.trans h2.le), max_eq_left h2.le]
      rw [abs_of_nonpos h1, abs_of_pos h2, hm]
      ring
  · have h2 : v2 ≤ 0 := by linarith
    have hm : max (max v1 v2) 0 = v1 := by
      rw [max_eq_left (h2.trans h1.le), max_eq_left h1.le]
    rw [abs_of_pos h1, abs_of_nonpos h2, hm]
    ring

/-- Claim C9: the code violates it. On the 1-D bound `[1, 2]` with period
`10` and the operand `[8, 10]` (midpoint `9`), `MinToMidSq` returns the
non-periodic `49`, while `MinDistanceSq` at the computed midpoint returns
`0` (the point query treats the out-of-range point as distance zero). -/
theorem MinToMidSq_ne_point_query_at_midpoint :
    c2B.MinToMidSq c5O2 = 49 ∧
    c2B.MinDistanceSqPoint (DHrectPeriodicBound.CalculateMidpoint c5O2.bounds) = 0 ∧
    c2B.MinToMidSq c5O2 ≠
      c2B.MinDistanceSqPoint (DHrectPeriodicBound.CalculateMidpoint c5O2.bounds) := by
  have h1 : c2B.MinToMidSq c5O2 = 49 := by
    norm_num [c2B, c5O2, DHrectPeriodicBound.MinToMidSq, minToMidTerm, DRange.mid,
      Finset.sum_range_succ]
  have h2 : c2B.MinDistanceSqPoint (DHrectPeriodicBound.CalculateMidpoint c5O2.bounds) = 0 := by
    norm_num [c2B, c5O2, DHrectPeriodicBound.MinDistanceSqPoint,
      DHrectPeriodicBound.CalculateMidpoint, minPointTerm, fold, DRange.mid,
      Finset.sum_range_succ]
  refine ⟨h1, h2, ?_⟩
  rw [h1, h2]; norm_num

/-- Claim C9 as amended: for a bound with non-empty extents, `MinToMidSq`
equals the non-periodic minimum squared distance to the other bound's
midpoint — per axis the zero-clamped larger gap, squared — with no
periodic folding applied. -/
theorem MinToMidSq_eq_clamped_midpoint_gap (B : DHrectPeriodicBound) (other : DHrectBound)
    (h : ∀ d < B.dim, (B.bounds d).lo ≤ (B.bounds d).hi) :
    B.MinToMidSq other = ∑ d in Finset.range B.dim,
      max (max ((B.bounds d).lo - (other.bounds d).mid)
               ((other.bounds d).mid - (B.bounds d).hi)) 0 ^ 2 := by
  unfold DHrectPeriodicBound.MinToMidSq
  rw [Finset.sum_div]
  refine Finset.sum_congr rfl fun d hd => ?_
  have hle := h d (Finset.mem_range.mp hd)
  simp only [minToMidTerm]
  exact ramp_sq_div_four _ _ (by linarith)

/-- Witness for the amended C9 at the bound `[1, 2]`, operand `[8, 10]`. -/
theorem MinToMidSq_eq_clamped_midpoint_gap_witness :
    (∀ d < c2B.dim, (c2B.bounds d).lo ≤ (c2B.bounds d).hi) ∧
    c2B.MinToMidSq c5O2 = ∑ d in Finset.range c2B.dim,
      max (max ((c2B.bounds d).lo - (c5O2.bounds d).mid)
               ((c5O2.bounds d).mid - (c2B.bounds d).hi)) 0 ^ 2 :=
  ⟨by decide, MinToMidSq_eq_clamped_midpoint_gap c2B c5O2 (by decide)⟩

/-- The `Contains` loop only reads the bound array at the offsets of the
supplied coordinates. -/
theorem containsLoop_agree (f g : ℕ → DRange) (p : List ℚ) :
    ∀ i : ℕ, (∀ j < p.length, f (i + j) = g (i + j)) →
    DHrectPeriodicBound.containsLoop f i p = DHrectPeriodicBound.containsLoop g i p := by
  induction p with
  | nil => intro i _; rfl
  | cons x xs ih =>
    intro i h
    have h0 : f i = g i := by simpa using h 0 (Nat.succ_pos _)
    simp only [DHrectPeriodicBound.containsLoop, h0]
    split_ifs with hc
    · refine ih (i + 1) fun j hj => ?_
      have e : i + 1 + j = i + (j + 1) := by omega
      rw [e]
      exact h (j + 1) (by simpa using Nat.succ_lt_succ hj)
    · rfl

/-- The `Contains` loop succeeds exactly when every supplied coordinate lies
in the corresponding axis range. -/
theorem containsLoop_iff_all (f : ℕ → DRange) (p : List ℚ) :
    ∀ i : ℕ, (DHrectPeriodicBound.containsLoop f i p = true ↔
      ∀ j < p.length, (f (i + j)).Contains (p.getD j 0) = true) := by
  induction p with
  | nil =>
    intro i
    constructor
    · intro _ j hj
      exact absurd hj (Nat.not_lt_zero j)
    · intro _
      rfl
  | cons x xs ih =>
    intro i
    simp only [DHrectPeriodicBound.containsLoop]
    by_cases hc : (f i).Contains x = true
    · rw [if_pos hc, ih (i + 1)]
      constructor
      · intro h j hj
        cases j with
        | zero => simpa using hc
        | succ j =>
          have e : i + (j + 1) = i + 1 + j := by omega
          rw [e]
          have hj' : j < xs.length := by simpa using hj
          simpa using h j hj'
      · intro h j hj
        have e : i + 1 + j = i + (j + 1) := by omega
        rw [e]
        have := h (j + 1) (by simpa using Nat.succ_lt_succ hj)
        simpa using this
    · rw [if_neg hc]
      constructor
      · intro h
        exact (Bool.false_ne_true h).elim
      · intro h
        exact absurd (by simpa using h 0 (Nat.succ_pos _)) hc

/-- Claim C10 (confirmed): `Contains` inspects only the first `m` axes,
`m` the length of the supplied point — two bounds agreeing there agree on
the result, whatever their dimensions and remaining extents — and for
`m` below the dimension it holds exactly when each of the first `m` axis
ranges contains the corresponding coordinate. -/
theorem Contains_reads_only_point_length (B B2 : DHrectPeriodicBound) (p : List ℚ)
    (hlen : p.length < B.dim)
    (hag : ∀ i < p.length, B.bounds i = B2.bounds i) :
    B.Contains p = B2.Contains p ∧
    (B.Contains p = true ↔ ∀ j < p.length,
      (B.bounds j).lo ≤ p.getD j 0 ∧ p.getD j 0 ≤ (B.bounds j).hi) := by
  constructor
  · exact containsLoop_agree B.bounds B2.bounds p 0 fun j hj => by simpa using hag j hj
  · rw [DHrectPeriodicBound.Contains, containsLoop_iff_all]
    simp only [Nat.zero_add, DRange.Contains, Bool.and_eq_true, decide_eq_true_eq]

/-- Witness for C10: a 2-coordinate point against a 3-D and a 4-D bound
agreeing on the first two axes only. -/
theorem Contains_reads_only_point_length_witness :
    (([(1 : ℚ) / 2, 1 / 2].length < c10B.dim) ∧
      (∀ i < [(1 : ℚ) / 2, 1 / 2].length, c10B.bounds i = c10B2.bounds i)) ∧
    (c10B.Contains [(1 : ℚ) / 2, 1 / 2] = c10B2.Contains [(1 : ℚ) / 2, 1 / 2] ∧
     (c10B.Contains [(1 : ℚ) / 2, 1 / 2] = true ↔ ∀ j < [(1 : ℚ) / 2, 1 / 2].length,
       (c10B.bounds j).lo ≤ [(1 : ℚ) / 2, 1 / 2].getD j 0 ∧
       [(1 : ℚ) / 2, 1 / 2].getD j 0 ≤ (c10B.bounds j).hi)) :=
  ⟨⟨by decide, by decide⟩,
   Contains_reads_only_point_length c10B c10B2 [(1 : ℚ) / 2, 1 / 2] (by decide) (by decide)⟩
